import Mathlib

/-!
Verification of generate_chart.py: a script that builds a fixed list of
timeline entries (build_events) and renders them as a Gantt-style chart
(create_timeline) via matplotlib.  The embedding below models the data the
script computes and the values it hands to the drawing library; the drawing
library itself (rasterization, file output) is an external collaborator and
is outside the model.
-/

/-- Calendar date as constructed by Python datetime.date(year, month, day). -/
structure Date where
  year : Nat
  month : Nat
  day : Nat
deriving DecidableEq, Inhabited

/-- Day count of a proleptic Gregorian date (days since the civil era origin),
the standard days-from-civil algorithm.  Python date objects compare by
calendar order, which coincides with this day count on valid dates, and
the matplotlib date2num function encodes a date by the same day count shifted to the
1970-01-01 epoch. -/
def Date.toDays (dt : Date) : Nat :=
  let y := if dt.month ≤ 2 then dt.year - 1 else dt.year
  let era := y / 400
  let yoe := y % 400
  let mp := (dt.month + 9) % 12
  let doy := (153 * mp + 2) / 5 + (dt.day - 1)
  let doe := yoe * 365 + yoe / 4 - yoe / 100 + doy
  era * 146097 + doe

/-- Date order (Python date comparison, used as the sort key). -/
def Date.le (a b : Date) : Bool := decide (a.toDays ≤ b.toDays)

/-- Numeric encoding of a date used by the renderer: mdates.date2num, the day
count relative to the matplotlib default epoch 1970-01-01. -/
def date2num (d : Date) : Int := (d.toDays : Int) - (Date.toDays ⟨1970, 1, 1⟩ : Int)

/-- One timeline entry, the (label, start_date, end_date) tuple of the source. -/
abbrev Event := String × Date × Date

/-- Embedding of build_events (lines 35-67).  The source reads the wall clock
once (today = date.today()); here that current date is an explicit
parameter, following the injected-clock design note of the spec. -/
def build_events (today : Date) : List Event :=
  [ ("Internship at Epic", today, ⟨2025, 12, 31⟩),
    ("Funding (18 months)", ⟨2026, 1, 1⟩, ⟨2027, 6, 30⟩),
    ("Unfunded period", ⟨2027, 7, 1⟩, ⟨2027, 12, 31⟩),
    ("Teaching duties", ⟨2026, 1, 1⟩, ⟨2026, 12, 31⟩),
    ("NeurIPS 2025", ⟨2025, 12, 2⟩, ⟨2025, 12, 7⟩),
    ("AAAI 2026", ⟨2026, 1, 20⟩, ⟨2026, 1, 27⟩),
    ("ICML 2026", ⟨2026, 7, 13⟩, ⟨2026, 7, 19⟩),
    ("NeurIPS 2026", ⟨2026, 12, 1⟩, ⟨2026, 12, 7⟩),
    ("AAAI 2027", ⟨2027, 2, 1⟩, ⟨2027, 2, 8⟩),
    ("ICML 2027", ⟨2027, 7, 10⟩, ⟨2027, 7, 16⟩),
    ("NeurIPS 2027", ⟨2027, 12, 1⟩, ⟨2027, 12, 7⟩),
    ("PIRC submission", ⟨2026, 5, 16⟩, ⟨2026, 5, 16⟩),
    ("Second paper submission", ⟨2027, 8, 15⟩, ⟨2027, 8, 15⟩) ]

/-- The twelve fixed entries of build_events: everything after the
clock-anchored Internship entry. -/
def fixed_tail : List Event :=
  [ ("Funding (18 months)", ⟨2026, 1, 1⟩, ⟨2027, 6, 30⟩),
    ("Unfunded period", ⟨2027, 7, 1⟩, ⟨2027, 12, 31⟩),
    ("Teaching duties", ⟨2026, 1, 1⟩, ⟨2026, 12, 31⟩),
    ("NeurIPS 2025", ⟨2025, 12, 2⟩, ⟨2025, 12, 7⟩),
    ("AAAI 2026", ⟨2026, 1, 20⟩, ⟨2026, 1, 27⟩),
    ("ICML 2026", ⟨2026, 7, 13⟩, ⟨2026, 7, 19⟩),
    ("NeurIPS 2026", ⟨2026, 12, 1⟩, ⟨2026, 12, 7⟩),
    ("AAAI 2027", ⟨2027, 2, 1⟩, ⟨2027, 2, 8⟩),
    ("ICML 2027", ⟨2027, 7, 10⟩, ⟨2027, 7, 16⟩),
    ("NeurIPS 2027", ⟨2027, 12, 1⟩, ⟨2027, 12, 7⟩),
    ("PIRC submission", ⟨2026, 5, 16⟩, ⟨2026, 5, 16⟩),
    ("Second paper submission", ⟨2027, 8, 15⟩, ⟨2027, 8, 15⟩) ]

/-- Size of the matplotlib tab20 colormap (cmap.N on line 88). -/
def tab20_N : Nat := 20

/-- Geometry and style of one horizontal bar as passed to ax.barh on line 91:
row is the y position i, width the clamped duration, left the x origin,
height the fixed 0.5, colour the palette index i % cmap.N handed to the
tab20 colormap, and label the label component of the loop tuple (the y tick text of the
row). -/
structure Bar where
  row : Nat
  width : ℚ
  left : Int
  height : ℚ
  colour : Nat
  label : String
deriving DecidableEq

/-- Everything create_timeline hands to the plotting library that the claims
speak about: the bars, the y axis ticks and labels, the y axis inversion,
the title and x label. -/
structure RenderData where
  bars : List Bar
  yticks : List Nat
  yticklabels : List String
  invertedY : Bool
  title : String
  xlabel : String
deriving DecidableEq

/-- Embedding of line 78, sorted(events, key=lambda item: item[1]): the Python
sorted builtin is a stable sort by the start date; List.mergeSort is stable for the
same order. -/
def sortEvents (events : List Event) : List Event :=
  events.mergeSort (fun a b => Date.le a.2.1 b.2.1)

/-- Embedding of create_timeline (lines 70-112): the sort, the intermediate
labels/starts/ends/durations lists, the barh loop with the width clamp
(duration if duration > 0 else 0.1) and the cyclic colour choice, and the
y axis setup (ticks range(len(labels)), tick labels, inversion).  Axis
formatting, gridlines and the file write are library effects with no data
dependence on the entries beyond what is recorded here. -/
def create_timeline (events : List Event) : RenderData :=
  let events_sorted := sortEvents events
  let labels := events_sorted.map (fun event => event.1)
  let starts := events_sorted.map (fun event => date2num event.2.1)
  let ends := events_sorted.map (fun event => date2num event.2.2)
  let durations := (starts.zip ends).map (fun se => se.2 - se.1)
  let bars := ((labels.zip (starts.zip durations)).enum).map (fun p =>
    { row := p.1,
      width := if 0 < p.2.2.2 then (p.2.2.2 : ℚ) else 1/10,
      left := p.2.2.1,
      height := 1/2,
      colour := p.1 % tab20_N,
      label := p.2.1 })
  { bars := bars,
    yticks := List.range labels.length,
    yticklabels := labels,
    invertedY := true,
    title := "PhD Timeline Overview",
    xlabel := "Date" }

/-- The bar the loop constructs for the sorted entry at row p.1. -/
def barOf (p : Nat × Event) : Bar :=
  { row := p.1,
    width := if 0 < date2num p.2.2.2 - date2num p.2.2.1
             then ((date2num p.2.2.2 - date2num p.2.2.1 : Int) : ℚ) else 1/10,
    left := date2num p.2.2.1,
    height := 1/2,
    colour := p.1 % tab20_N,
    label := p.2.1 }

theorem zip_maps_enumFrom_map {α β : Type} (f₁ : α → String) (f₂ f₃ : α → Int)
    (h : Nat × (String × Int × Int) → β) :
    ∀ (l : List α) (n : Nat),
    ((((l.map f₁).zip ((l.map f₂).zip
        (((l.map f₂).zip (l.map f₃)).map (fun se => se.2 - se.1)))).enumFrom n).map h)
      = (l.enumFrom n).map (fun p => h (p.1, (f₁ p.2, (f₂ p.2, f₃ p.2 - f₂ p.2))))
  | [], _ => rfl
  | a :: l, n => by
    simp only [List.map_cons, List.zip_cons_cons, List.enumFrom_cons]
    exact congrArg _ (zip_maps_enumFrom_map f₁ f₂ f₃ h l (n + 1))

/-- The bars list is the image of the sorted, enumerated entry list under
barOf. -/
theorem bars_eq (events : List Event) :
    (create_timeline events).bars = (sortEvents events).enum.map barOf := by
  show (((_ : List String).zip _).enum).map _ = _
  rw [List.enum_eq_enumFrom, List.enum_eq_enumFrom,
    zip_maps_enumFrom_map (fun event : Event => event.1)
      (fun event => date2num event.2.1) (fun event => date2num event.2.2) _ _ 0]
  rfl

theorem evLe_trans : ∀ (a b c : Event),
    Date.le a.2.1 b.2.1 → Date.le b.2.1 c.2.1 → Date.le a.2.1 c.2.1 := by
  intro a b c hab hbc
  simp only [Date.le, decide_eq_true_eq] at hab hbc ⊢
  exact Nat.le_trans hab hbc

theorem evLe_total : ∀ (a b : Event),
    Date.le a.2.1 b.2.1 || Date.le b.2.1 a.2.1 := by
  intro a b
  simp only [Date.le, Bool.or_eq_true, decide_eq_true_eq]
  exact Nat.le_total _ _

/-- The sorted copy is ordered by ascending start date (day count order). -/
theorem sortEvents_sorted (l : List Event) :
    (sortEvents l).Pairwise (fun a b => a.2.1.toDays ≤ b.2.1.toDays) := by
  have h := List.sorted_mergeSort evLe_trans evLe_total l
  exact h.imp (fun hab => by simpa [Date.le] using hab)

theorem snd_mem_of_mem_enumFrom {α : Type} :
    ∀ {l : List α} {n : Nat} {p : Nat × α}, p ∈ l.enumFrom n → p.2 ∈ l
  | a :: l, n, p, h => by
    rw [List.enumFrom_cons] at h
    rcases List.mem_cons.mp h with h | h
    · subst h
      exact List.mem_cons_self _ _
    · exact List.mem_cons_of_mem _ (snd_mem_of_mem_enumFrom h)

/-- The bar at row i is built from the sorted entry at position i. -/
theorem bars_getElem? (l : List Event) (i : Nat) :
    (create_timeline l).bars[i]? = ((sortEvents l)[i]?).map (fun e => barOf (i, e)) := by
  rw [bars_eq, List.getElem?_map, List.enum_eq_enumFrom, List.getElem?_enumFrom]
  cases h : (sortEvents l)[i]? <;> simp

/-- The width handed to barh for the sorted entry at position i. -/
theorem width_getElem? (l : List Event) (i : Nat) (e : Event)
    (h : (sortEvents l)[i]? = some e) :
    ((create_timeline l).bars.map Bar.width)[i]? =
      some (if 0 < date2num e.2.2 - date2num e.2.1
            then ((date2num e.2.2 - date2num e.2.1 : Int) : ℚ) else 1/10) := by
  rw [List.getElem?_map, bars_getElem?, h]
  rfl

theorem create_timeline_lengths (l : List Event) :
    (create_timeline l).bars.length = l.length ∧
    (create_timeline l).yticks.length = l.length ∧
    (create_timeline l).yticklabels.length = l.length := by
  refine ⟨?_, ?_, ?_⟩
  · rw [bars_eq]
    simp [sortEvents]
  · show (List.range (List.length _)).length = _
    simp [sortEvents]
  · show (List.map _ _).length = _
    simp [sortEvents]

theorem mem_build_events (t : Date) (e : Event) (he : e ∈ build_events t) :
    e = ("Internship at Epic", t, (⟨2025, 12, 31⟩ : Date)) ∨ e ∈ fixed_tail :=
  List.mem_cons.mp he

/-- Every entry of the input ends up drawn as some bar carrying its label, its
start as left edge, and its clamped duration as width. -/
theorem entry_has_bar (t : Date) (e : Event) (he : e ∈ build_events t) :
    ∃ b ∈ (create_timeline (build_events t)).bars, b.label = e.1 ∧
      b.left = date2num e.2.1 ∧
      b.width = (if 0 < date2num e.2.2 - date2num e.2.1
                 then ((date2num e.2.2 - date2num e.2.1 : Int) : ℚ) else 1/10) := by
  have hs : e ∈ sortEvents (build_events t) := List.mem_mergeSort.mpr he
  obtain ⟨i, hi⟩ := List.getElem?_of_mem hs
  have hb := bars_getElem? (build_events t) i
  rw [hi] at hb
  simp only [Option.map_some'] at hb
  exact ⟨barOf (i, e), List.getElem?_mem hb, rfl, rfl, rfl⟩

/-- Every drawn bar comes from an entry of the input list. -/
theorem bar_mem_build (t : Date) (b : Bar)
    (hb : b ∈ (create_timeline (build_events t)).bars) :
    ∃ p : Nat × Event, p.2 ∈ build_events t ∧ b = barOf p := by
  rw [bars_eq] at hb
  obtain ⟨p, hp, hpb⟩ := List.mem_map.mp hb
  rw [List.enum_eq_enumFrom] at hp
  exact ⟨p, List.mem_mergeSort.mp (snd_mem_of_mem_enumFrom hp), hpb.symm⟩

/-- C1 counterexample: on the concrete current date 2025-10-12 (and on any
other date) build_events returns 13 entries, so the entry count of the
current fixed schedule is not 12 as the claim states. -/
theorem C1_counterexample : ¬ ((build_events ⟨2025, 10, 12⟩).length = 12) := by
  decide

/-- C1 (amended): for every current date, the renderer draws one horizontal bar
per entry and one y tick and one y tick label per entry, so the row count
equals the number of entries build_events returns, and that number is 13 in
the current fixed schedule (not 12). -/
theorem C1_row_count (t : Date) :
    (create_timeline (build_events t)).bars.length = (build_events t).length ∧
    (create_timeline (build_events t)).yticks.length = (build_events t).length ∧
    (create_timeline (build_events t)).yticklabels.length = (build_events t).length ∧
    (build_events t).length = 13 :=
  ⟨(create_timeline_lengths _).1, (create_timeline_lengths _).2.1,
   (create_timeline_lengths _).2.2, rfl⟩

/-- C2 counterexample: on current date 2025-10-12 the sorted entry at row 5 is
the PIRC submission with end = start (numeric difference 0, hence end ≥
start), yet the width handed to the drawing call at that row is 1/10, not
the 0 that numeric(end) − numeric(start) prescribes: the boundary
case end = start fails. -/
theorem C2_counterexample :
    (sortEvents (build_events ⟨2025, 10, 12⟩))[5]? =
      some ("PIRC submission", ⟨2026, 5, 16⟩, ⟨2026, 5, 16⟩) ∧
    date2num ⟨2026, 5, 16⟩ - date2num ⟨2026, 5, 16⟩ = 0 ∧
    ((create_timeline (build_events ⟨2025, 10, 12⟩)).bars.map Bar.width)[5]? =
      some (1/10) ∧
    ((1 : ℚ)/10) ≠ 0 := by
  refine ⟨?_, by decide, ?_, by norm_num⟩
  · simp [sortEvents, build_events, List.mergeSort, List.splitInTwo, List.merge,
      Date.le, Date.toDays]
  · rw [width_getElem? (build_events ⟨2025, 10, 12⟩) 5
      ("PIRC submission", ⟨2026, 5, 16⟩, ⟨2026, 5, 16⟩) ?_]
    · norm_num
    · simp [sortEvents, build_events, List.mergeSort, List.splitInTwo, List.merge,
        Date.le, Date.toDays]

/-- C2 (amended): for every event list and every row i of the sorted order,
if the entry at row i has end strictly after start then the bar width at
that row equals numeric(end) − numeric(start) exactly; in the boundary
case end = start the width is instead the fixed minimum clamp 1/10. -/
theorem C2_bar_width (l : List Event) (i : Nat) (e : Event)
    (h : (sortEvents l)[i]? = some e) :
    (0 < date2num e.2.2 - date2num e.2.1 →
      ((create_timeline l).bars.map Bar.width)[i]? =
        some ((date2num e.2.2 - date2num e.2.1 : Int) : ℚ)) ∧
    (date2num e.2.2 - date2num e.2.1 = 0 →
      ((create_timeline l).bars.map Bar.width)[i]? = some (1/10)) := by
  have hw := width_getElem? l i e h
  constructor
  · intro hpos
    rw [hw, if_pos hpos]
  · intro hz
    rw [hw, if_neg (by omega)]

/-- C2 witness: at current date 2025-10-12 the ICML 2026 entry sits at sorted
row 6 with positive duration, and the width drawn there is its exact
numeric duration. -/
theorem C2_bar_width_witness :
    ((create_timeline (build_events ⟨2025, 10, 12⟩)).bars.map Bar.width)[6]? =
      some ((date2num ⟨2026, 7, 19⟩ - date2num ⟨2026, 7, 13⟩ : Int) : ℚ) :=
  (C2_bar_width (build_events ⟨2025, 10, 12⟩) 6
    ("ICML 2026", ⟨2026, 7, 13⟩, ⟨2026, 7, 19⟩)
    (by simp [sortEvents, build_events, List.mergeSort, List.splitInTwo, List.merge,
      Date.le, Date.toDays])).1 (by decide)

/-- C3: a bar whose computed duration numeric(end) − numeric(start) is zero or
negative is drawn with the fixed minimum width 1/10, and every drawn bar
has strictly positive (hence never negative) width. -/
theorem C3_min_width (l : List Event) :
    (∀ (i : Nat) (e : Event), (sortEvents l)[i]? = some e →
      date2num e.2.2 - date2num e.2.1 ≤ 0 →
      ((create_timeline l).bars.map Bar.width)[i]? = some (1/10)) ∧
    (∀ b ∈ (create_timeline l).bars, 0 < b.width) := by
  constructor
  · intro i e h hle
    rw [width_getElem? l i e h, if_neg (by omega)]
  · intro b hb
    rw [bars_eq] at hb
    obtain ⟨p, hp, hpb⟩ := List.mem_map.mp hb
    rw [← hpb]
    show 0 < (if 0 < date2num p.2.2.2 - date2num p.2.2.1
              then ((date2num p.2.2.2 - date2num p.2.2.1 : Int) : ℚ) else 1/10)
    split
    · rename_i hpos
      exact_mod_cast hpos
    · norm_num

/-- C3 witness: at current date 2025-10-12 the degenerate one-day PIRC entry at
sorted row 5 is drawn with the clamp width 1/10. -/
theorem C3_min_width_witness :
    ((create_timeline (build_events ⟨2025, 10, 12⟩)).bars.map Bar.width)[5]? =
      some (1/10) :=
  (C3_min_width (build_events ⟨2025, 10, 12⟩)).1 5
    ("PIRC submission", ⟨2026, 5, 16⟩, ⟨2026, 5, 16⟩)
    (by simp [sortEvents, build_events, List.mergeSort, List.splitInTwo, List.merge,
      Date.le, Date.toDays])
    (by decide)

/-- C4: the renderer sorts ascending by start date with a stable sort: the
sorted order is nondecreasing in start-date day count, an entry with a
strictly earlier start date gets a strictly smaller row index (hence sits
above on the inverted y axis), and two entries with equal start dates keep
their input relative order. -/
theorem C4_stable_sort (l : List Event) :
    (sortEvents l).Pairwise (fun a b => a.2.1.toDays ≤ b.2.1.toDays) ∧
    (∀ (i j : Nat) (hi : i < (sortEvents l).length) (hj : j < (sortEvents l).length),
      ((sortEvents l).get ⟨i, hi⟩).2.1.toDays < ((sortEvents l).get ⟨j, hj⟩).2.1.toDays →
      i < j) ∧
    (∀ A B : Event, A.2.1.toDays = B.2.1.toDays → [A, B].Sublist l →
      [A, B].Sublist (sortEvents l)) ∧
    (create_timeline l).invertedY = true := by
  have hsorted := sortEvents_sorted l
  refine ⟨hsorted, ?_, ?_, rfl⟩
  · intro i j hi hj hlt
    simp only [List.get_eq_getElem] at hlt
    rcases Nat.lt_trichotomy i j with h | h | h
    · exact h
    · subst h
      exact absurd hlt (Nat.lt_irrefl _)
    · have hle := (List.pairwise_iff_getElem.mp hsorted) j i hj hi h
      exact absurd (Nat.lt_of_le_of_lt hle hlt) (Nat.lt_irrefl _)
  · intro A B hAB hsub
    exact List.pair_sublist_mergeSort evLe_trans evLe_total
      (by simp [Date.le, hAB]) hsub

/-- C4 witness: Funding and Teaching both start 2026-01-01 and appear in that
input order, and the sorted order of the schedule at current date 2025-10-12
keeps them adjacent in that same relative order. -/
theorem C4_stable_sort_witness :
    [(("Funding (18 months)", ⟨2026, 1, 1⟩, ⟨2027, 6, 30⟩) : Event),
     (("Teaching duties", ⟨2026, 1, 1⟩, ⟨2026, 12, 31⟩) : Event)].Sublist
      (sortEvents (build_events ⟨2025, 10, 12⟩)) :=
  (C4_stable_sort (build_events ⟨2025, 10, 12⟩)).2.2.1
    ("Funding (18 months)", ⟨2026, 1, 1⟩, ⟨2027, 6, 30⟩)
    ("Teaching duties", ⟨2026, 1, 1⟩, ⟨2026, 12, 31⟩)
    (by decide) (by decide)

/-- C5: build_events is a function of the current date alone — its value is
fully determined by today, so two calls on the same date agree — and only
the first entry carries the current date, in its start field only (its
label and end are fixed); every other entry is a fixed literal, and the
first entry does genuinely vary with the date. -/
theorem C5_clock_dependence (t : Date) :
    build_events t = ("Internship at Epic", t, (⟨2025, 12, 31⟩ : Date)) :: fixed_tail ∧
    build_events ⟨2025, 1, 1⟩ ≠ build_events ⟨2025, 1, 2⟩ :=
  ⟨rfl, by decide⟩

/-- C6: the bar at row i is coloured with palette index i modulo the tab20
palette size 20 (so its index is always below 20, and any rows at index 20
or beyond reuse the colour of the row 20 positions earlier). -/
theorem C6_palette (l : List Event) :
    (∀ (i : Nat) (b : Bar), (create_timeline l).bars[i]? = some b →
      b.row = i ∧ b.colour = i % tab20_N ∧ b.colour < tab20_N) ∧
    (∀ i : Nat, tab20_N ≤ i → i % tab20_N = (i - tab20_N) % tab20_N) := by
  constructor
  · intro i b hb
    rw [bars_getElem?] at hb
    cases h : (sortEvents l)[i]? with
    | none =>
      rw [h] at hb
      cases hb
    | some e =>
      rw [h] at hb
      simp only [Option.map_some', Option.some.injEq] at hb
      rw [← hb]
      exact ⟨rfl, rfl, Nat.mod_lt _ (by decide)⟩
  · intro i hi
    exact Nat.mod_eq_sub_mod hi

/-- C6 witness: at current date 2025-10-12 the bar at row 6 (ICML 2026) has row
index 6 and colour index 6 % 20 < 20. -/
theorem C6_palette_witness :
    (barOf (6, ("ICML 2026", ⟨2026, 7, 13⟩, ⟨2026, 7, 19⟩))).row = 6 ∧
    (barOf (6, ("ICML 2026", ⟨2026, 7, 13⟩, ⟨2026, 7, 19⟩))).colour = 6 % tab20_N ∧
    (barOf (6, ("ICML 2026", ⟨2026, 7, 13⟩, ⟨2026, 7, 19⟩))).colour < tab20_N :=
  (C6_palette (build_events ⟨2025, 10, 12⟩)).1 6
    (barOf (6, ("ICML 2026", ⟨2026, 7, 13⟩, ⟨2026, 7, 19⟩)))
    (by rw [bars_getElem?]
        simp [sortEvents, build_events, List.mergeSort, List.splitInTwo, List.merge,
          Date.le, Date.toDays])

/-- C7: for every current date the ICML 2026 conference entry (2026-07-13 to
2026-07-19) is rendered as some bar, and every bar labeled ICML 2026 has
left edge equal to the numeric encoding of 2026-07-13 and width exactly 6
days. -/
theorem C7_conference_bar (t : Date) :
    (∃ b ∈ (create_timeline (build_events t)).bars, b.label = "ICML 2026") ∧
    (∀ b ∈ (create_timeline (build_events t)).bars, b.label = "ICML 2026" →
      b.left = date2num ⟨2026, 7, 13⟩ ∧ b.width = 6) := by
  constructor
  · obtain ⟨b, hb, hl, -, -⟩ := entry_has_bar t
      ("ICML 2026", ⟨2026, 7, 13⟩, ⟨2026, 7, 19⟩) (by simp [build_events])
    exact ⟨b, hb, hl⟩
  · intro b hb hl
    obtain ⟨p, hmem, rfl⟩ := bar_mem_build t b hb
    have hl2 : p.2.1 = "ICML 2026" := hl
    rcases mem_build_events t p.2 hmem with he | he
    · rw [he] at hl2
      have hcontra : "Internship at Epic" = "ICML 2026" := hl2
      exact absurd hcontra (by decide)
    · have hpe : p.2 = ("ICML 2026", ⟨2026, 7, 13⟩, ⟨2026, 7, 19⟩) :=
        (by decide : ∀ x ∈ fixed_tail, x.1 = "ICML 2026" →
          x = ("ICML 2026", ⟨2026, 7, 13⟩, ⟨2026, 7, 19⟩)) p.2 he hl2
      constructor
      · show date2num p.2.2.1 = date2num ⟨2026, 7, 13⟩
        rw [hpe]
      · show (if 0 < date2num p.2.2.2 - date2num p.2.2.1
              then ((date2num p.2.2.2 - date2num p.2.2.1 : Int) : ℚ) else 1/10) = 6
        rw [hpe]
        show (if 0 < date2num ⟨2026, 7, 19⟩ - date2num ⟨2026, 7, 13⟩
              then ((date2num ⟨2026, 7, 19⟩ - date2num ⟨2026, 7, 13⟩ : Int) : ℚ)
              else 1/10) = 6
        rw [show date2num ⟨2026, 7, 19⟩ - date2num ⟨2026, 7, 13⟩ = 6 from by decide]
        norm_num

/-- C7 witness: at current date 2025-10-12 the bar built for ICML 2026 at sorted
row 6 has left edge numeric(2026-07-13) and width 6. -/
theorem C7_conference_bar_witness :
    (barOf (6, ("ICML 2026", ⟨2026, 7, 13⟩, ⟨2026, 7, 19⟩))).left =
      date2num ⟨2026, 7, 13⟩ ∧
    (barOf (6, ("ICML 2026", ⟨2026, 7, 13⟩, ⟨2026, 7, 19⟩))).width = 6 :=
  (C7_conference_bar ⟨2025, 10, 12⟩).2
    (barOf (6, ("ICML 2026", ⟨2026, 7, 13⟩, ⟨2026, 7, 19⟩)))
    (by rw [bars_eq]
        simp [sortEvents, build_events, List.mergeSort, List.splitInTwo, List.merge,
          Date.le, Date.toDays, List.enum_cons, List.enumFrom])
    rfl

/-- C8: for every current date the single-day PIRC submission entry
(2026-05-16 to 2026-05-16) is rendered as some bar, and every bar labeled
PIRC submission has left edge equal to the numeric encoding of 2026-05-16
and width equal to the fixed minimum clamp 1/10. -/
theorem C8_single_day_bar (t : Date) :
    (∃ b ∈ (create_timeline (build_events t)).bars, b.label = "PIRC submission") ∧
    (∀ b ∈ (create_timeline (build_events t)).bars, b.label = "PIRC submission" →
      b.left = date2num ⟨2026, 5, 16⟩ ∧ b.width = 1/10) := by
  constructor
  · obtain ⟨b, hb, hl, -, -⟩ := entry_has_bar t
      ("PIRC submission", ⟨2026, 5, 16⟩, ⟨2026, 5, 16⟩) (by simp [build_events])
    exact ⟨b, hb, hl⟩
  · intro b hb hl
    obtain ⟨p, hmem, rfl⟩ := bar_mem_build t b hb
    have hl2 : p.2.1 = "PIRC submission" := hl
    rcases mem_build_events t p.2 hmem with he | he
    · rw [he] at hl2
      have hcontra : "Internship at Epic" = "PIRC submission" := hl2
      exact absurd hcontra (by decide)
    · have hpe : p.2 = ("PIRC submission", ⟨2026, 5, 16⟩, ⟨2026, 5, 16⟩) :=
        (by decide : ∀ x ∈ fixed_tail, x.1 = "PIRC submission" →
          x = ("PIRC submission", ⟨2026, 5, 16⟩, ⟨2026, 5, 16⟩)) p.2 he hl2
      constructor
      · show date2num p.2.2.1 = date2num ⟨2026, 5, 16⟩
        rw [hpe]
      · show (if 0 < date2num p.2.2.2 - date2num p.2.2.1
              then ((date2num p.2.2.2 - date2num p.2.2.1 : Int) : ℚ) else 1/10) = 1/10
        rw [hpe]
        show (if 0 < date2num ⟨2026, 5, 16⟩ - date2num ⟨2026, 5, 16⟩
              then ((date2num ⟨2026, 5, 16⟩ - date2num ⟨2026, 5, 16⟩ : Int) : ℚ)
              else 1/10) = 1/10
        norm_num

/-- C8 witness: at current date 2025-10-12 the bar built for the PIRC submission
at sorted row 5 has left edge numeric(2026-05-16) and the clamp width 1/10. -/
theorem C8_single_day_bar_witness :
    (barOf (5, ("PIRC submission", ⟨2026, 5, 16⟩, ⟨2026, 5, 16⟩))).left =
      date2num ⟨2026, 5, 16⟩ ∧
    (barOf (5, ("PIRC submission", ⟨2026, 5, 16⟩, ⟨2026, 5, 16⟩))).width = 1/10 :=
  (C8_single_day_bar ⟨2025, 10, 12⟩).2
    (barOf (5, ("PIRC submission", ⟨2026, 5, 16⟩, ⟨2026, 5, 16⟩)))
    (by rw [bars_eq]
        simp [sortEvents, build_events, List.mergeSort, List.splitInTwo, List.merge,
          Date.le, Date.toDays, List.enum_cons, List.enumFrom])
    rfl

/-- The events list of the caller as left behind by create_timeline.  In the source,
line 78 builds a new sorted list (sorted copies), entry tuples are immutable,
and no statement of create_timeline assigns to the events list or its
elements, so the list the caller holds after the call is the input
unchanged. -/
def create_timeline_events_post (events : List Event) : List Event := events

/-- C9: create_timeline leaves the list of the caller and its entries untouched, and
the sorted copy it works on holds exactly the entries of the caller (it is a
permutation of the input, no entry altered, added or dropped). -/
theorem C9_no_mutation (l : List Event) :
    create_timeline_events_post l = l ∧ (sortEvents l).Perm l :=
  ⟨rfl, List.mergeSort_perm l _⟩

/-- C10: for every current date, every entry after the clock-anchored first one
satisfies start ≤ end (in day count), while the first entry — always the
Internship entry, whose end is the fixed 2025-12-31 — satisfies start ≤ end
exactly when the current date is on or before 2025-12-31.  So the head is
the only entry that can be degenerate. -/
theorem C10_range_invariant (t : Date) :
    (∀ e ∈ (build_events t).tail, e.2.1.toDays ≤ e.2.2.toDays) ∧
    (build_events t).headI.1 = "Internship at Epic" ∧
    ((build_events t).headI.2.1.toDays ≤ (build_events t).headI.2.2.toDays ↔
      t.toDays ≤ Date.toDays ⟨2025, 12, 31⟩) := by
  refine ⟨?_, rfl, Iff.rfl⟩
  exact (by decide : ∀ e ∈ fixed_tail, e.2.1.toDays ≤ e.2.2.toDays)

/-- C10 witness: the Funding entry sits in the tail of the schedule at current
date 2025-10-12 and indeed has start ≤ end. -/
theorem C10_range_invariant_witness :
    Date.toDays ⟨2026, 1, 1⟩ ≤ Date.toDays ⟨2027, 6, 30⟩ :=
  (C10_range_invariant ⟨2025, 10, 12⟩).1
    ("Funding (18 months)", ⟨2026, 1, 1⟩, ⟨2027, 6, 30⟩) (by decide)
